import Mathlib

/-!
Verification of the identity-reconciliation pipeline of the lego_inventory
repository, shallowly embedded in Lean 4.

The embedding models the SQLite Catalog Store as association lists and the
scripts clean_instabrick_inventory.py, resolve_missing_parts.py and
utils/rebrickable_api.py as pure functions over that state, taking the
network (Rebrickable API) as an oracle function argument.  SQL statements
are translated individually: INSERT OR IGNORE respects the declared primary
keys (parts.design_id, part_aliases.alias), UPDATE maps over rows, DELETE
filters rows.
-/

/-- A two-column table keyed on the first column (TEXT PRIMARY KEY). -/
abbrev Tbl := List (String × String)

/-- True when the table already holds a row whose key column equals k. -/
def hasKey (t : Tbl) (k : String) : Bool :=
  t.any (fun r => r.1 == k)

/-- INSERT OR IGNORE INTO t(key, value) VALUES (k, v): a primary-key
conflict with an existing row makes the insert a no-op. -/
def insertOrIgnore (t : Tbl) (k v : String) : Tbl :=
  if hasKey t k then t else t ++ [(k, v)]

/-- One row of the inventory table (the columns the pipeline touches). -/
structure InvRow where
  rowId : Nat
  design_id : String
  color_id : Nat
  quantity : Int
deriving Repr, DecidableEq

/-- The Catalog Store state mutated by the reconciliation scripts:
parts(design_id PK, name), part_aliases(alias PK, design_id),
inventory(design_id, quantity, ...). -/
structure DB where
  parts : Tbl
  part_aliases : Tbl
  inventory : List InvRow
deriving Repr, DecidableEq

/-- INSERT OR IGNORE INTO parts(design_id, name) VALUES (rb, name). -/
def insertPartIgnore (rb name : String) (db : DB) : DB :=
  { db with parts := insertOrIgnore db.parts rb name }

/-- INSERT OR IGNORE INTO part_aliases(alias, design_id) VALUES (a, rb). -/
def insertAliasIgnore (a rb : String) (db : DB) : DB :=
  { db with part_aliases := insertOrIgnore db.part_aliases a rb }

/-- The rewrite applied to one inventory row by
UPDATE inventory SET design_id = rb WHERE design_id = a. -/
def rewriteRow (rb a : String) (row : InvRow) : InvRow :=
  if row.design_id == a then { row with design_id := rb } else row

/-- UPDATE inventory SET design_id = rb WHERE design_id = a. -/
def rewriteInventory (rb a : String) (db : DB) : DB :=
  { db with inventory := db.inventory.map (rewriteRow rb a) }

/-- DELETE FROM parts WHERE design_id = a. -/
def deletePart (a : String) (db : DB) : DB :=
  { db with parts := db.parts.filter (fun p => !(p.1 == a)) }

/-- DELETE FROM part_aliases WHERE alias = a AND design_id = a. -/
def deleteSelfAlias (a : String) (db : DB) : DB :=
  { db with part_aliases := db.part_aliases.filter (fun r => !(r.1 == a && r.2 == a)) }

/-- The statements executed by reconcile_batch (clean_instabrick_inventory.py
lines 54-75, and equivalently resolve_missing_parts.py lines 56-74) for one
resolved pair, in source order. -/
def commitSteps (a rb name : String) : List (DB → DB) :=
  [insertPartIgnore rb name, insertAliasIgnore a rb, rewriteInventory rb a,
   deletePart a, deleteSelfAlias a]

/-- Run a list of store mutations left to right. -/
def applySteps (fs : List (DB → DB)) (db : DB) : DB :=
  fs.foldl (fun db f => f db) db

/-- Stop the Migration Committer after the first i statements (a crash
partway through the commit). -/
def commitUpTo (a rb name : String) (i : Nat) (db : DB) : DB :=
  applySteps ((commitSteps a rb name).take i) db

/-- The full per-alias commit of the Migration Committer. -/
def commitAlias (a rb name : String) (db : DB) : DB :=
  applySteps (commitSteps a rb name) db

/-- reconcile_batch: loop the per-alias commit over the mapping returned by
bulk_parts_by_bricklink; each entry is (alias, (design_id, name)). -/
def reconcile_batch (remote : List (String × String × String)) (db : DB) : DB :=
  remote.foldl (fun db r => commitAlias r.1 r.2.1 r.2.2 db) db

/-- The four statements of the numeric / suffix-strip / direct-lookup
migrations (clean_instabrick_inventory.py lines 93-105, 183-198, 247-259):
same as the committer but without the self-alias deletion. -/
def commitNumeric (a rb name : String) (db : DB) : DB :=
  deletePart a (rewriteInventory rb a (insertAliasIgnore a rb (insertPartIgnore rb name db)))

/-- Referential integrity of the inventory: every design_id referenced by an
inventory row exists in parts. -/
def invIntegrityB (db : DB) : Bool :=
  db.inventory.all (fun row => hasKey db.parts row.design_id)

/-- SUM(quantity) over the rows of a list with the given design_id. -/
def qsumL (l : List InvRow) (d : String) : Int :=
  ((l.filter (fun row => row.design_id == d)).map (fun row => row.quantity)).sum

/-- SUM(quantity) FROM inventory WHERE design_id = d. -/
def sumQty (db : DB) (d : String) : Int :=
  qsumL db.inventory d

/-- First-match lookup in an association list (dict access). -/
def lookupAssoc {α : Type} (m : List (String × α)) (k : String) : Option α :=
  (m.find? (fun r => r.1 == k)).map (fun r => r.2)

/-- Python dict assignment d[k] = v over an association-list model:
overwrite the existing entry or append a new one. -/
def assocSet {α : Type} (m : List (String × α)) (k : String) (v : α) : List (String × α) :=
  if m.any (fun r => r.1 == k) then
    m.map (fun r => if r.1 == k then (k, v) else r)
  else m ++ [(k, v)]

/-- strip_base_alias: the leading digits plus an optional single letter
(regex ^(digits)(letter)? with IGNORECASE), or none when the identifier does
not start with a digit. -/
def strip_base_alias (s : String) : Option String :=
  let cs := s.toList
  let ds := cs.takeWhile Char.isDigit
  if ds.isEmpty then none
  else
    match cs.drop ds.length with
    | c :: _ => if c.isAlpha then some (String.mk (ds ++ [c])) else some (String.mk ds)
    | [] => some (String.mk ds)

/-- looks_like_bricklink_id: the whole identifier is digits optionally
followed by a single letter (regex fullmatch). -/
def looks_like_bricklink_id (s : String) : Bool :=
  match strip_base_alias s with
  | some b => b == s
  | none => false

/-- get_placeholders: SELECT alias FROM part_aliases WHERE alias = design_id. -/
def get_placeholders (db : DB) : List String :=
  (db.part_aliases.filter (fun r => r.1 == r.2)).map (fun r => r.1)

/-- get_unknown_design_ids:
SELECT design_id FROM parts WHERE name = 'Unknown part'. -/
def get_unknown_design_ids (db : DB) : List String :=
  (db.parts.filter (fun p => p.2 == "Unknown part")).map (fun p => p.1)

/-- Split a list into consecutive chunks of n (the loops
for i in range(0, total, MAX_BATCH): chunk = xs[i : i + MAX_BATCH]);
the fuel argument makes the recursion structural. -/
def chunkListGo {α : Type} (n : Nat) : Nat → List α → List (List α)
  | 0, _ => []
  | _, [] => []
  | fuel+1, xs => xs.take n :: chunkListGo n fuel (xs.drop n)

/-- Split a list into consecutive chunks of size n. -/
def chunkList {α : Type} (n : Nat) (xs : List α) : List (List α) :=
  chunkListGo n xs.length xs

/-- MAX_BATCH = 50 in clean_instabrick_inventory.py and
resolve_missing_parts.py. -/
def MAX_BATCH : Nat := 50

/-- The Rebrickable bulk-by-BrickLink endpoint abstracted as an oracle from
the queried id list to the alias to (design_id, name) mapping it returns. -/
abbrev BulkOracle := List String → List (String × String × String)

/-- Outcome of the single-part endpoint GET /parts/(alias)/ as observed by
the Phase 3 loop: decoded fields, an HTTP error status, or another
exception. An empty string models a missing/falsy JSON field. -/
inductive SingleResp where
  | ok (part_num : String) (name : String)
  | httpError (status : Nat)
  | otherError
deriving Repr, DecidableEq

/-- Phase 1 of clean_instabrick_inventory.main: reconcile placeholder
aliases in chunks of MAX_BATCH through reconcile_batch. -/
def phase1 (bulk : BulkOracle) (db : DB) : DB :=
  (chunkList MAX_BATCH (get_placeholders db)).foldl
    (fun db chunk => reconcile_batch (bulk chunk) db) db

/-- Phase 1b, reconcile_numeric_unknowns: aliases of parts still named
Unknown part that look like BrickLink ids, migrated in chunks without the
self-alias deletion. -/
def phase1b (bulk : BulkOracle) (db : DB) : DB :=
  (chunkList MAX_BATCH ((get_unknown_design_ids db).filter looks_like_bricklink_id)).foldl
    (fun db chunk => (bulk chunk).foldl (fun db r => commitNumeric r.1 r.2.1 r.2.2 db) db) db

/-- One iteration of the Phase 1c loop: strip the base identifier, look it
up in bulk, and migrate the alias onto the returned design_id. -/
def stripStep (bulk : BulkOracle) (db : DB) (a : String) : DB :=
  match strip_base_alias a with
  | none => db
  | some base =>
    if base != a then
      match lookupAssoc (bulk [base]) base with
      | some rn => commitNumeric a rn.1 rn.2 db
      | none => db
    else db

/-- Phase 1c of clean_instabrick_inventory.main: suffix stripping. -/
def phase1c (bulk : BulkOracle) (db : DB) : DB :=
  (get_unknown_design_ids db).foldl (stripStep bulk) db

/-- update_names_batch: overwrite Unknown part names using a
design_id to proper-name mapping, skipping falsy names. -/
def update_names_batch (mapping : List (String × String)) (db : DB) : DB :=
  mapping.foldl
    (fun db kv =>
      if kv.2 == "" then db
      else { db with parts := db.parts.map (fun p => if p.1 == kv.1 && p.2 == "Unknown part" then (p.1, kv.2) else p) })
    db

/-- Phase 2 of clean_instabrick_inventory.main: fill in names for parts
still carrying the placeholder name, in chunks of MAX_BATCH. -/
def phase2 (bulk : BulkOracle) (db : DB) : DB :=
  (chunkList MAX_BATCH (get_unknown_design_ids db)).foldl
    (fun db chunk =>
      update_names_batch
        (((bulk chunk).foldl (fun m r => assocSet m r.1 r.2.2) [])) db) db

/-- One iteration of the Phase 3 loop: direct single-item lookup of an
alias; 404 and any other error are a clean miss that leaves the store
untouched and moves on. -/
def directLookupStep (single : String → SingleResp) (db : DB) (a : String) : DB :=
  match single a with
  | SingleResp.httpError _ => db
  | SingleResp.otherError => db
  | SingleResp.ok canonical name =>
    if canonical == "" || name == "" then db
    else if canonical != a then commitNumeric a canonical name db
    else { db with parts := db.parts.map (fun p => if p.1 == a && p.2 == "Unknown part" then (p.1, name) else p) }

/-- The Phase 3 loop body over a fixed alias list. -/
def phase3_go (single : String → SingleResp) (aliases : List String) (db : DB) : DB :=
  aliases.foldl (directLookupStep single) db

/-- Phase 3 of clean_instabrick_inventory.main: direct lookup for parts
still named Unknown part. -/
def phase3 (single : String → SingleResp) (db : DB) : DB :=
  phase3_go single (get_unknown_design_ids db) db

/-- clean_instabrick_inventory.main, phases in source order: bulk
reconciliation, numeric reinterpretation, suffix stripping, name fill,
direct single-item lookup. -/
def mainPipeline (bulk : BulkOracle) (single : String → SingleResp) (db : DB) : DB :=
  phase3 single (phase2 bulk (phase1c bulk (phase1b bulk (phase1 bulk db))))

/-- Modelled from the spec: the pipeline as section 4.3 of the spec
describes it, with the placeholder-name fill step run only after all
resolution strategies have completed. Used solely to compare orderings
against mainPipeline. -/
def fill_last_pipeline (bulk : BulkOracle) (single : String → SingleResp) (db : DB) : DB :=
  phase2 bulk (phase3 single (phase1c bulk (phase1b bulk (phase1 bulk db))))

/-- MAX_RETRIES = 5: total attempts for transient errors in
utils/rebrickable_api.py. -/
def MAX_RETRIES : Nat := 5

/-- RETRY_STATUS: the transient statuses retried by get_json. -/
def RETRY_STATUS : List Nat := [429, 502, 503, 504]

/-- One HTTP response as get_json observes it: the status code, the parsed
Retry-After header when present, and the decoded JSON body (abstracted to a
string). -/
structure HttpResp where
  status : Nat
  retryAfter : Option Nat
  body : String
deriving Repr, DecidableEq

/-- How a call to get_json ends: the decoded body of a success, the raised
requests.HTTPError status, or the trailing RuntimeError raised when the
retry loop falls through. -/
inductive GetResult where
  | ok (body : String)
  | httpError (status : Nat)
  | unreachable
deriving Repr, DecidableEq

/-- One backoff sleep performed by get_json: which attempt slept, the status
that caused it, and the base delay in seconds that the random jitter in
[0, 0.5) is added to (the jitter itself is not modelled further). -/
structure SleepEv where
  attempt : Nat
  status : Nat
  base : Nat
deriving Repr, DecidableEq

/-- The body of get_json's for-loop, attempt-indexed; the responses oracle
gives the response to each numbered attempt, the fuel counts the remaining
loop iterations, and falling out of the loop is the unreachable result.
Returns the outcome and the trace of backoff sleeps. -/
def get_json_from (resps : Nat → HttpResp) : Nat → Nat → GetResult × List SleepEv
  | _, 0 => (GetResult.unreachable, [])
  | attempt, fuel+1 =>
    if (resps attempt).status < 400 then
      (GetResult.ok (resps attempt).body, [])
    else if (resps attempt).status ∈ RETRY_STATUS ∧ attempt < MAX_RETRIES then
      ((get_json_from resps (attempt+1) fuel).1,
        { attempt := attempt, status := (resps attempt).status,
          base := if (resps attempt).status == 429 then (resps attempt).retryAfter.getD 5
                  else 2 ^ (attempt - 1) } :: (get_json_from resps (attempt+1) fuel).2)
    else
      (GetResult.httpError (resps attempt).status, [])

/-- get_json of utils/rebrickable_api.py: up to MAX_RETRIES attempts
starting at attempt 1. -/
def get_json (resps : Nat → HttpResp) : GetResult × List SleepEv :=
  get_json_from resps 1 MAX_RETRIES

/-- One request issued to the Rebrickable API: endpoint and query params. -/
structure ApiRequest where
  endpoint : String
  params : List (String × String)
deriving Repr, DecidableEq

/-- One element of the results array of the parts endpoint, keeping the
fields bulk_parts_by_bricklink reads: part_num, name and the stringified
external_ids.BrickLink list. -/
structure PartRec where
  part_num : String
  name : String
  bricklink_ids : List String
deriving Repr, DecidableEq

/-- The dict built by bulk_parts_by_bricklink from a results array: for
every part and every BrickLink id attached to it,
mapping[bl] = (part_num, name). -/
def buildMapping (results : List PartRec) : List (String × String × String) :=
  results.foldl
    (fun m p => p.bricklink_ids.foldl (fun m bl => assocSet m bl (p.part_num, p.name)) m) []

/-- bulk_parts_by_bricklink of utils/rebrickable_api.py: assert at most 50
ids, issue one GET /parts/ request with the comma-joined id list, and build
the alias to (design_id, name) mapping. Returns the outcome (the assertion
message on failure) together with the list of requests issued. -/
def bulk_parts_by_bricklink (api : ApiRequest → List PartRec) (bricklink_ids : List String) :
    Except String (List (String × String × String)) × List ApiRequest :=
  if bricklink_ids.length ≤ 50 then
    let req : ApiRequest :=
      { endpoint := "/parts/",
        params := [("bricklink_id__in", String.intercalate "," bricklink_ids)] }
    (Except.ok (buildMapping (api req)), [req])
  else
    (Except.error "Pass at most 50 ids per call to avoid 429s", [])

/-- RB_API_BASE of utils/rebrickable_api.py. -/
def RB_API_BASE : String := "https://rebrickable.com/api/v3/lego"

/-- Resolve a possibly-relative endpoint against RB_API_BASE, as both
get_json and paginate do. -/
def resolveUrl (endpoint : String) : String :=
  if endpoint.startsWith "http" then endpoint else RB_API_BASE ++ endpoint

/-- Query parameters of a request. -/
abbrev Params := List (String × String)

/-- One page of a paginated endpoint: the results array and the optional
next URL. -/
structure Page where
  results : List String
  next : Option String
deriving Repr, DecidableEq

/-- The while-loop of paginate: fetch the current URL, yield its results,
follow next with params cleared; the fuel bounds the number of iterations
(the Python loop runs until next is absent). Returns the yielded items and
the (url, params) pairs requested, in order. -/
def paginate_go (fetch : String → Option Params → Page) :
    Nat → Option String → Option Params → List String × List (String × Option Params)
  | 0, _, _ => ([], [])
  | _+1, none, _ => ([], [])
  | fuel+1, some u, p =>
    ((fetch u p).results ++ (paginate_go fetch fuel (fetch u p).next none).1,
     (u, p) :: (paginate_go fetch fuel (fetch u p).next none).2)

/-- paginate of utils/rebrickable_api.py. -/
def paginate (fetch : String → Option Params → Page) (fuel : Nat)
    (endpoint : String) (params : Option Params) : List String × List (String × Option Params) :=
  paginate_go fetch fuel (some (resolveUrl endpoint)) params

/-- A store holding the placeholder created at ingest for the alias of the
spec scenario: the part row named Unknown part, the self-alias row, and one
inventory row keyed by the alias. -/
def dbC1 : DB :=
  { parts := [("3068bpb1291", "Unknown part")],
    part_aliases := [("3068bpb1291", "3068bpb1291")],
    inventory := [{ rowId := 1, design_id := "3068bpb1291", color_id := 5, quantity := 4 }] }

/-- A bulk oracle that knows the stripped base 3068b as a canonical id and
nothing else. -/
def bulkC1 : BulkOracle :=
  fun ids => if ids == ["3068b"] then [("3068b", "3068b", "Tile 2 x 2")] else []

/-- A store holding a placeholder part, its self-alias and no inventory. -/
def dbC3 : DB :=
  { parts := [("frnd474", "Unknown part")],
    part_aliases := [("frnd474", "frnd474")],
    inventory := [] }

/-- A store with one placeholder part whose name is fillable but whose
identifier is resolvable only by the direct single-item lookup. -/
def dbC5 : DB :=
  { parts := [("3068bpb1291", "Unknown part")],
    part_aliases := [],
    inventory := [{ rowId := 1, design_id := "3068bpb1291", color_id := 5, quantity := 4 }] }

/-- A bulk oracle that cannot resolve the alias or its base but does return
a proper name for it when queried for name filling. -/
def bulkC5 : BulkOracle :=
  fun ids => if ids == ["3068bpb1291"] then [("3068bpb1291", "9999", "Filled Name")] else []

/-- A single-part oracle that resolves the alias to a distinct canonical id. -/
def singleC5 : String → SingleResp :=
  fun a => if a == "3068bpb1291" then SingleResp.ok "3068" "Tile 2 x 2" else SingleResp.httpError 404

/-- A store with one placeholder resolvable by strategy 1 (bulk direct
lookup). -/
def dbC5a : DB :=
  { parts := [("975", "Unknown part")],
    part_aliases := [("975", "975")],
    inventory := [{ rowId := 1, design_id := "975", color_id := 0, quantity := 7 }] }

/-- A bulk oracle resolving the placeholder 975 to canonical 3794b. -/
def bulkC5a : BulkOracle :=
  fun ids => if ids == ["975"] then [("975", "3794b", "Plate 1 x 2")] else []

/-- Responses: two rate-limit answers with explicit Retry-After headers,
then success. -/
def respsC6 : Nat → HttpResp :=
  fun a =>
    if a == 1 then { status := 429, retryAfter := some 7, body := "" }
    else if a == 2 then { status := 429, retryAfter := some 3, body := "" }
    else { status := 200, retryAfter := none, body := "B" }

/-- A parts-endpoint oracle returning one part that carries two BrickLink
ids. -/
def apiC7 : ApiRequest → List PartRec :=
  fun _ => [{ part_num := "3794b", name := "Plate 1 x 2", bricklink_ids := ["3794", "975"] }]

/-- A list of 51 distinct ids (too many for one bulk call). -/
def idsC7 : List String := (List.range 51).map (fun i => toString i)

/-- A three-page chain for the pagination witness. -/
def fetchC10 : String → Option Params → Page :=
  fun u _ =>
    if u == "https://rebrickable.com/api/v3/lego/colors/" then
      { results := ["black", "blue"], next := some "https://rebrickable.com/api/v3/lego/colors/?page=2" }
    else if u == "https://rebrickable.com/api/v3/lego/colors/?page=2" then
      { results := ["red"], next := none }
    else { results := [], next := none }

/-- The single GET /parts/ request bulk_parts_by_bricklink issues for a
given id list. -/
def partsRequest (ids : List String) : ApiRequest :=
  { endpoint := "/parts/", params := [("bricklink_id__in", String.intercalate "," ids)] }

/-- A store with quantity spread over the alias, the canonical id and an
unrelated id. -/
def dbW4 : DB :=
  { parts := [("975", "Unknown part"), ("3794b", "Plate 1 x 2"), ("3001", "Brick 2 x 4")],
    part_aliases := [("975", "975")],
    inventory :=
      [{ rowId := 1, design_id := "975", color_id := 0, quantity := 7 },
       { rowId := 2, design_id := "3794b", color_id := 4, quantity := 2 },
       { rowId := 3, design_id := "975", color_id := 4, quantity := 1 },
       { rowId := 4, design_id := "3001", color_id := 0, quantity := 9 }] }

/-- Claim C1 (code behavior at the failing input): committing the resolved
pair (3068bpb1291, 3068b) on a store holding the ingest-created placeholder
self-alias leaves no part_aliases row for the alias at all: the
INSERT OR IGNORE of (3068bpb1291, 3068b) is ignored because the self-alias
row still occupies the alias primary key, and the later self-alias DELETE
then removes that row; the suffix-stripping variant (stripStep), which never
deletes the self-alias, leaves the alias still mapped to itself. In neither
case does the store contain the mapping 3068bpb1291 to 3068b that the claim
requires. -/
theorem c1_alias_mapping_lost :
    lookupAssoc (commitAlias "3068bpb1291" "3068b" "Tile 2 x 2" dbC1).part_aliases
        "3068bpb1291" = none ∧
    lookupAssoc (stripStep bulkC1 dbC1 "3068bpb1291").part_aliases
        "3068bpb1291" = some "3068bpb1291" := by
  decide

/-- Claim C3 (code behavior at the failing input): the Migration Committer
commit is not idempotent. On a store holding the placeholder self-alias,
one commit of (frnd474, 92198pr0402) leaves no part_aliases row (the insert
is ignored, the self-alias is deleted), while a second commit of the same
arguments then inserts the (frnd474, 92198pr0402) row, so the two states
differ. -/
theorem c3_commit_not_idempotent :
    commitAlias "frnd474" "92198pr0402" "X" (commitAlias "frnd474" "92198pr0402" "X" dbC3) ≠
      commitAlias "frnd474" "92198pr0402" "X" dbC3 := by
  decide

/-- Claim C5 counterexample: the placeholder-name fill step does not run
after all resolution strategies have completed. On a store whose only
placeholder is resolvable by the direct single-item lookup but whose name is
fillable by the bulk oracle, the pipeline as written (fill before direct
lookup) renames the placeholder and never migrates it, whereas the
spec-ordered pipeline with the fill step last migrates it to the canonical
id; the two final states differ. -/
theorem c5_counterexample_fill_order :
    mainPipeline bulkC5 singleC5 dbC5 ≠ fill_last_pipeline bulkC5 singleC5 dbC5 := by
  decide

/-- Claim C5 as amended: the cascade of clean_instabrick_inventory.main
consists of four resolution strategies in priority order (bulk direct
lookup, numeric reinterpretation, suffix stripping, direct single-item
lookup) with the name-fill step between the third and fourth, and matches
are first-match-wins: a placeholder resolved by strategy 1 is removed from
the unresolved set, so the final state is independent of whatever the
direct single-item lookup oracle would have answered for it. -/
theorem c5_cascade_amended (single : String → SingleResp) :
    mainPipeline bulkC5a single dbC5a =
      { parts := [("3794b", "Plate 1 x 2")],
        part_aliases := [],
        inventory := [{ rowId := 1, design_id := "3794b", color_id := 0, quantity := 7 }] } := rfl

/-- Inserting a key makes it present. -/
theorem hasKey_insertOrIgnore_self (t : Tbl) (k v : String) :
    hasKey (insertOrIgnore t k v) k = true := by
  unfold insertOrIgnore
  split
  · assumption
  · simp [hasKey, List.any_append]

/-- Insert-if-absent never removes keys. -/
theorem hasKey_insertOrIgnore_mono (t : Tbl) (k v k' : String)
    (h : hasKey t k' = true) : hasKey (insertOrIgnore t k v) k' = true := by
  unfold insertOrIgnore
  split
  · exact h
  · simp only [hasKey, List.any_append]
    simp only [hasKey] at h
    simp [h]

/-- Deleting the rows keyed a keeps every other present key present. -/
theorem hasKey_filter_ne (t : Tbl) (a d : String) (hne : d ≠ a)
    (h : hasKey t d = true) : hasKey (t.filter (fun p => !(p.1 == a))) d = true := by
  simp only [hasKey, List.any_eq_true] at h ⊢
  rcases h with ⟨x, hx, hxd⟩
  have hx1 : x.1 = d := by simpa using hxd
  refine ⟨x, List.mem_filter.mpr ⟨hx, ?_⟩, hxd⟩
  simp [hx1, hne]

/-- The canonical-part insert preserves inventory integrity. -/
theorem integ_insertPartIgnore (db : DB) (rb n : String) (h : invIntegrityB db = true) :
    invIntegrityB (insertPartIgnore rb n db) = true := by
  simp only [invIntegrityB, insertPartIgnore, List.all_eq_true] at h ⊢
  intro row hrow
  exact hasKey_insertOrIgnore_mono _ _ _ _ (h row hrow)

/-- The inventory rewrite preserves integrity when the target id exists. -/
theorem integ_rewriteInventory (db : DB) (rb a : String)
    (hr : hasKey db.parts rb = true) (h : invIntegrityB db = true) :
    invIntegrityB (rewriteInventory rb a db) = true := by
  simp only [invIntegrityB, rewriteInventory, List.all_eq_true] at h ⊢
  intro row hrow
  rcases List.mem_map.mp hrow with ⟨row0, h0, rfl⟩
  unfold rewriteRow
  split
  · exact hr
  · exact h row0 h0

/-- After the rewrite no inventory row references the alias any more. -/
theorem rewriteInventory_rows_ne (db : DB) (rb a : String) (hne : a ≠ rb) :
    ∀ row ∈ (rewriteInventory rb a db).inventory, row.design_id ≠ a := by
  intro row hrow
  simp only [rewriteInventory] at hrow
  rcases List.mem_map.mp hrow with ⟨row0, h0, rfl⟩
  unfold rewriteRow
  split
  · exact fun hEq => hne hEq.symm
  · rename_i hcond
    intro hEq
    exact hcond (by simp [hEq])

/-- Deleting the placeholder part row keeps integrity provided no inventory
row still references it. -/
theorem integ_deletePart (db : DB) (a : String)
    (hrows : ∀ row ∈ db.inventory, row.design_id ≠ a)
    (h : invIntegrityB db = true) :
    invIntegrityB (deletePart a db) = true := by
  simp only [invIntegrityB, deletePart, List.all_eq_true] at h ⊢
  intro row hrow
  exact hasKey_filter_ne _ _ _ (hrows row hrow) (h row hrow)

/-- Integrity holds after every prefix of the committer statements. -/
theorem integ_commitUpTo (db : DB) (a rb n : String) (hne : a ≠ rb)
    (h : invIntegrityB db = true) (i : Nat) :
    invIntegrityB (commitUpTo a rb n i db) = true := by
  have h1 := integ_insertPartIgnore db rb n h
  have h2 : invIntegrityB (insertAliasIgnore a rb (insertPartIgnore rb n db)) = true := h1
  have hr : hasKey (insertAliasIgnore a rb (insertPartIgnore rb n db)).parts rb = true :=
    hasKey_insertOrIgnore_self db.parts rb n
  have h3 := integ_rewriteInventory _ rb a hr h2
  have h4 := integ_deletePart _ a (rewriteInventory_rows_ne _ rb a hne) h3
  have h5 : invIntegrityB (deleteSelfAlias a (deletePart a (rewriteInventory rb a (insertAliasIgnore a rb (insertPartIgnore rb n db))))) = true := h4
  match i with
  | 0 => exact h
  | 1 => exact h1
  | 2 => exact h2
  | 3 => exact h3
  | 4 => exact h4
  | (m+5) =>
    have htake : (commitSteps a rb n).take (m+5) = commitSteps a rb n :=
      List.take_of_length_le (by simp [commitSteps])
    unfold commitUpTo
    rw [htake]
    exact h5

/-- reconcile_batch preserves inventory integrity when every committed pair
has a genuinely distinct alias and design id. -/
theorem integ_reconcile_batch (remote : List (String × String × String)) (db : DB)
    (h : invIntegrityB db = true) (hrem : ∀ p ∈ remote, p.1 ≠ p.2.1) :
    invIntegrityB (reconcile_batch remote db) = true := by
  induction remote generalizing db with
  | nil => exact h
  | cons p rest ih =>
    have hp : p.1 ≠ p.2.1 := hrem p (List.mem_cons_self p rest)
    have h' : invIntegrityB (commitAlias p.1 p.2.1 p.2.2 db) = true :=
      integ_commitUpTo db p.1 p.2.1 p.2.2 hp h 5
    simp only [reconcile_batch, List.foldl_cons]
    exact ih (commitAlias p.1 p.2.1 p.2.2 db) h' (fun q hq => hrem q (List.mem_cons_of_mem p hq))

/-- Claim C2 counterexample: the integrity invariant is not universal over
commits. The placeholder deletion of reconcile_batch is unconditional (it
lacks the only-if alias distinct from design id guard), so committing a
self-pair (3957, 3957) on a store satisfying referential integrity deletes
the part row while the inventory row still references it: integrity holds
before the commit and is false both after the deletion statement (prefix of
four statements) and after the full commit. -/
theorem c2_counterexample_self_pair :
    invIntegrityB
      { parts := [("3957", "Unknown part")],
        part_aliases := [("3957", "3957")],
        inventory := [{ rowId := 1, design_id := "3957", color_id := 0, quantity := 3 }] } = true ∧
    invIntegrityB (commitUpTo "3957" "3957" "Antenna 4H" 4
      { parts := [("3957", "Unknown part")],
        part_aliases := [("3957", "3957")],
        inventory := [{ rowId := 1, design_id := "3957", color_id := 0, quantity := 3 }] }) = false ∧
    invIntegrityB (reconcile_batch [("3957", "3957", "Antenna 4H")]
      { parts := [("3957", "Unknown part")],
        part_aliases := [("3957", "3957")],
        inventory := [{ rowId := 1, design_id := "3957", color_id := 0, quantity := 3 }] }) = false := by
  decide

/-- Claim C2 as amended: restricted to resolved pairs whose alias differs
from the design id (the case the counterexample forces out), the invariant
is exact. Starting from a store whose inventory rows all reference existing
parts, running the Migration Committer over any such batch and then
stopping a further commit after any prefix of its statements leaves every
inventory row referencing an existing part: the canonical and alias inserts
precede the inventory rewrite and the placeholder deletion follows it, so
no prefix leaves a row referencing a deleted part. -/
theorem c2_integrity_every_prefix (db : DB) (remote : List (String × String × String))
    (a rb n : String) (i : Nat)
    (h : invIntegrityB db = true)
    (hrem : ∀ p ∈ remote, p.1 ≠ p.2.1)
    (hne : a ≠ rb) :
    invIntegrityB (commitUpTo a rb n i (reconcile_batch remote db)) = true :=
  integ_commitUpTo _ a rb n hne (integ_reconcile_batch remote db h hrem) i

/-- Witness for C2 at a concrete store, batch and crash point. -/
theorem c2_integrity_every_prefix_witness :
    invIntegrityB (commitUpTo "3068bpb1291" "3068b" "Tile 2 x 2" 3
      (reconcile_batch [("975", "3794b", "Plate 1 x 2")]
        { parts := [("975", "Unknown part")],
          part_aliases := [("975", "975")],
          inventory := [{ rowId := 1, design_id := "975", color_id := 0, quantity := 7 }] })) = true :=
  c2_integrity_every_prefix
    { parts := [("975", "Unknown part")],
      part_aliases := [("975", "975")],
      inventory := [{ rowId := 1, design_id := "975", color_id := 0, quantity := 7 }] }
    [("975", "3794b", "Plate 1 x 2")] "3068bpb1291" "3068b" "Tile 2 x 2" 3
    (by decide) (by decide) (by decide)

/-- The rewrite never changes a row's quantity. -/
theorem rewriteRow_quantity (rb a : String) (row : InvRow) :
    (rewriteRow rb a row).quantity = row.quantity := by
  unfold rewriteRow
  split <;> rfl

/-- The rewritten inventory carries exactly the original quantities. -/
theorem map_rewrite_quantities (l : List InvRow) (rb a : String) :
    (l.map (rewriteRow rb a)).map (fun row => row.quantity) =
      l.map (fun row => row.quantity) := by
  induction l with
  | nil => rfl
  | cons row rest ih => simp [rewriteRow_quantity, ih]

/-- After the rewrite, the quantity mass of the canonical id is its old mass
plus the alias mass. -/
theorem qsumL_rewrite_target (l : List InvRow) (rb a : String) (hne : a ≠ rb) :
    qsumL (l.map (rewriteRow rb a)) rb = qsumL l rb + qsumL l a := by
  induction l with
  | nil => simp [qsumL]
  | cons row rest ih =>
    by_cases hd : row.design_id = a
    · have hrw : rewriteRow rb a row = { row with design_id := rb } := by
        simp [rewriteRow, hd]
      simp only [List.map_cons, qsumL, List.filter_cons, hrw]
      simp only [qsumL] at ih
      simp [hd, hne, Ne.symm hne, ih]
      ring
    · have hrw : rewriteRow rb a row = row := by
        simp [rewriteRow, hd]
      by_cases hrb : row.design_id = rb
      · simp only [List.map_cons, qsumL, List.filter_cons, hrw]
        simp only [qsumL] at ih
        simp [hd, hrb, Ne.symm hne, ih]
        ring
      · simp only [List.map_cons, qsumL, List.filter_cons, hrw]
        simp only [qsumL] at ih
        simp [hd, hrb, ih]

/-- After the rewrite, the alias holds no quantity. -/
theorem qsumL_rewrite_alias (l : List InvRow) (rb a : String) (hne : a ≠ rb) :
    qsumL (l.map (rewriteRow rb a)) a = 0 := by
  induction l with
  | nil => simp [qsumL]
  | cons row rest ih =>
    by_cases hd : row.design_id = a
    · have hrw : rewriteRow rb a row = { row with design_id := rb } := by
        simp [rewriteRow, hd]
      simp only [List.map_cons, qsumL, List.filter_cons, hrw]
      simp only [qsumL] at ih
      simp [Ne.symm hne, ih]
    · have hrw : rewriteRow rb a row = row := by
        simp [rewriteRow, hd]
      simp only [List.map_cons, qsumL, List.filter_cons, hrw]
      simp only [qsumL] at ih
      simp [hd, ih]

/-- The rewrite leaves every other design id's quantity mass unchanged. -/
theorem qsumL_rewrite_other (l : List InvRow) (rb a d : String)
    (hda : d ≠ a) (hdr : d ≠ rb) :
    qsumL (l.map (rewriteRow rb a)) d = qsumL l d := by
  induction l with
  | nil => rfl
  | cons row rest ih =>
    by_cases hd : row.design_id = a
    · have hrw : rewriteRow rb a row = { row with design_id := rb } := by
        simp [rewriteRow, hd]
      simp only [List.map_cons, qsumL, List.filter_cons, hrw]
      simp only [qsumL] at ih
      simp [hd, Ne.symm hda, Ne.symm hdr, ih]
    · have hrw : rewriteRow rb a row = row := by
        simp [rewriteRow, hd]
      by_cases hrd : row.design_id = d
      · simp only [List.map_cons, qsumL, List.filter_cons, hrw]
        simp only [qsumL] at ih
        simp [hrd, ih]
      · simp only [List.map_cons, qsumL, List.filter_cons, hrw]
        simp only [qsumL] at ih
        simp [hrd, ih]

/-- The committer only touches inventory through the single bulk rewrite. -/
theorem commitAlias_inventory (db : DB) (a rb n : String) :
    (commitAlias a rb n db).inventory = db.inventory.map (rewriteRow rb a) := rfl

/-- Claim C4: a migration conserves inventory quantity. For alias distinct
from the canonical id, the committed store gives the canonical id exactly
its old quantity mass plus the alias mass, leaves the alias with none,
leaves every other design id's mass unchanged, and changes no row's
quantity at all. -/
theorem c4_quantity_conserved (db : DB) (a rb n : String) (hne : a ≠ rb) :
    sumQty (commitAlias a rb n db) rb = sumQty db rb + sumQty db a ∧
    sumQty (commitAlias a rb n db) a = 0 ∧
    (∀ d, d ≠ a → d ≠ rb → sumQty (commitAlias a rb n db) d = sumQty db d) ∧
    (commitAlias a rb n db).inventory.map (fun row => row.quantity) =
      db.inventory.map (fun row => row.quantity) := by
  refine ⟨?_, ?_, ?_, ?_⟩
  · show qsumL (db.inventory.map (rewriteRow rb a)) rb = _
    exact qsumL_rewrite_target db.inventory rb a hne
  · show qsumL (db.inventory.map (rewriteRow rb a)) a = 0
    exact qsumL_rewrite_alias db.inventory rb a hne
  · intro d hda hdr
    show qsumL (db.inventory.map (rewriteRow rb a)) d = _
    exact qsumL_rewrite_other db.inventory rb a d hda hdr
  · rw [commitAlias_inventory]
    exact map_rewrite_quantities db.inventory rb a

/-- Witness for C4 at a concrete store and resolved pair. -/
theorem c4_quantity_conserved_witness :
    (sumQty (commitAlias "975" "3794b" "Plate 1 x 2" dbW4) "3794b" =
        sumQty dbW4 "3794b" + sumQty dbW4 "975" ∧
      sumQty (commitAlias "975" "3794b" "Plate 1 x 2" dbW4) "975" = 0 ∧
      (∀ d, d ≠ "975" → d ≠ "3794b" →
        sumQty (commitAlias "975" "3794b" "Plate 1 x 2" dbW4) d = sumQty dbW4 d) ∧
      (commitAlias "975" "3794b" "Plate 1 x 2" dbW4).inventory.map (fun row => row.quantity) =
        dbW4.inventory.map (fun row => row.quantity)) :=
  c4_quantity_conserved dbW4 "975" "3794b" "Plate 1 x 2" (by decide)

/-- Full behavior of the get_json loop from a given attempt with matching
fuel: the loop always returns a body or raises (never falls through to the
trailing RuntimeError), a success is the body of some attempted response
with status below 400, a raised error carries a status of at least 400, at
most fuel attempts happen, and every backoff sleep is caused by a retryable
status, with the Retry-After base (default 5) for 429 and the exponential
base otherwise. -/
theorem get_json_from_spec (resps : Nat → HttpResp) :
    ∀ (fuel attempt : Nat), 1 ≤ attempt → 1 ≤ fuel → attempt + fuel = MAX_RETRIES + 1 →
      (get_json_from resps attempt fuel).1 ≠ GetResult.unreachable ∧
      (∀ b, (get_json_from resps attempt fuel).1 = GetResult.ok b →
        ∃ j, attempt ≤ j ∧ j ≤ MAX_RETRIES ∧ (resps j).status < 400 ∧ (resps j).body = b) ∧
      (∀ s, (get_json_from resps attempt fuel).1 = GetResult.httpError s → 400 ≤ s) ∧
      ((get_json_from resps attempt fuel).2.length + 1 ≤ fuel) ∧
      (∀ e ∈ (get_json_from resps attempt fuel).2,
        e.status ∈ RETRY_STATUS ∧ (resps e.attempt).status = e.status ∧
        (e.status = 429 → e.base = (resps e.attempt).retryAfter.getD 5) ∧
        (e.status ≠ 429 → e.base = 2 ^ (e.attempt - 1))) := by
  intro fuel
  induction fuel with
  | zero =>
    intro attempt h1 hf hsum
    exact absurd hf (by omega)
  | succ f ih =>
    intro attempt h1 hf hsum
    have hsum6 : attempt + (f + 1) = 6 := by simpa [MAX_RETRIES] using hsum
    have hat : attempt ≤ MAX_RETRIES := by simp only [MAX_RETRIES]; omega
    by_cases h400 : (resps attempt).status < 400
    · refine ⟨?_, ?_, ?_, ?_, ?_⟩
      · simp [get_json_from, h400]
      · intro b hb
        simp [get_json_from, h400] at hb
        exact ⟨attempt, le_refl _, hat, h400, hb⟩
      · intro s hs
        simp [get_json_from, h400] at hs
      · simp [get_json_from, h400]
      · intro e he
        simp [get_json_from, h400] at he
    · by_cases hr : ((resps attempt).status ∈ RETRY_STATUS ∧ attempt < MAX_RETRIES)
      · have hr5 : attempt < 5 := by simpa [MAX_RETRIES] using hr.2
        have hih := ih (attempt + 1) (by omega) (by omega) (by simp [MAX_RETRIES]; omega)
        refine ⟨?_, ?_, ?_, ?_, ?_⟩
        · simp only [get_json_from, if_neg h400, if_pos hr]
          exact hih.1
        · intro b hb
          simp only [get_json_from, if_neg h400, if_pos hr] at hb
          rcases hih.2.1 b hb with ⟨j, hj1, hj2, hj3, hj4⟩
          exact ⟨j, by omega, hj2, hj3, hj4⟩
        · intro s hs
          simp only [get_json_from, if_neg h400, if_pos hr] at hs
          exact hih.2.2.1 s hs
        · simp only [get_json_from, if_neg h400, if_pos hr, List.length_cons]
          have := hih.2.2.2.1
          omega
        · intro e he
          simp only [get_json_from, if_neg h400, if_pos hr] at he
          rcases List.mem_cons.mp he with hev | hmem
        
          · subst hev
            refine ⟨hr.1, rfl, ?_, ?_⟩
            · intro h429
              simp only at h429
              simp [h429]
            · intro hne429
              simp only at hne429
              have : ((resps attempt).status == 429) = false := by
                simpa using hne429
              simp [this]
          · exact hih.2.2.2.2 e hmem
      · refine ⟨?_, ?_, ?_, ?_, ?_⟩
        · simp [get_json_from, h400, hr]
        · intro b hb
          simp [get_json_from, h400, hr] at hb
        · intro s hs
          simp [get_json_from, h400, hr] at hs
          omega
        · simp [get_json_from, h400, hr]
        · intro e he
          simp [get_json_from, h400, hr] at he

/-- Claim C6 counterexample: the client does not retry exactly once after a
rate-limit response. With two successive 429 responses followed by a 200,
get_json sleeps for each server-supplied Retry-After and retries twice, so
an execution with two rate-limit retries exists. -/
theorem c6_counterexample_rate_limit_retries :
    ¬ (∀ resps : Nat → HttpResp,
        ((get_json resps).2.filter (fun e => e.status == 429)).length ≤ 1) := by
  intro h
  exact absurd (h respsC6) (by decide)

/-- Claim C6 as amended: on 429 the client sleeps for the server-supplied
Retry-After base (default 5 when the header is absent) plus jitter and
retries, repeatedly if needed; on other retryable statuses it backs off
exponentially with base 2 to the attempt minus 1; and in all cases no
request is attempted more than MAX_RETRIES times, every sleep being caused
by a status in RETRY_STATUS. -/
theorem c6_retry_discipline (resps : Nat → HttpResp) :
    (get_json resps).2.length + 1 ≤ MAX_RETRIES ∧
    (∀ e ∈ (get_json resps).2,
      e.status ∈ RETRY_STATUS ∧ (resps e.attempt).status = e.status ∧
      (e.status = 429 → e.base = (resps e.attempt).retryAfter.getD 5) ∧
      (e.status ≠ 429 → e.base = 2 ^ (e.attempt - 1))) :=
  have h := get_json_from_spec resps MAX_RETRIES 1 (by decide) (by decide) (by decide)
  ⟨h.2.2.2.1, h.2.2.2.2⟩

/-- Witness for the amended C6 at a concrete responses oracle. -/
theorem c6_retry_discipline_witness :
    (get_json respsC6).2.length + 1 ≤ MAX_RETRIES ∧
    (∀ e ∈ (get_json respsC6).2,
      e.status ∈ RETRY_STATUS ∧ (respsC6 e.attempt).status = e.status ∧
      (e.status = 429 → e.base = (respsC6 e.attempt).retryAfter.getD 5) ∧
      (e.status ≠ 429 → e.base = 2 ^ (e.attempt - 1))) :=
  c6_retry_discipline respsC6

/-- Dict assignment adds the assigned pair or keeps existing pairs. -/
theorem mem_assocSet {α : Type} (m : List (String × α)) (k : String) (v : α)
    (x : String × α) (hx : x ∈ assocSet m k v) : x = (k, v) ∨ x ∈ m := by
  unfold assocSet at hx
  split at hx
  · rcases List.mem_map.mp hx with ⟨y, hy, hxy⟩
    by_cases hk : y.1 == k
    · left
      rw [if_pos hk] at hxy
      exact hxy.symm
    · right
      rw [if_neg hk] at hxy
      exact hxy ▸ hy
  · rcases List.mem_append.mp hx with hm | hs
    · exact Or.inr hm
    · exact Or.inl (by simpa using hs)

/-- A successful dict lookup comes from a pair present in the list. -/
theorem lookupAssoc_mem {α : Type} (m : List (String × α)) (q : String) (w : α)
    (h : lookupAssoc m q = some w) : (q, w) ∈ m := by
  unfold lookupAssoc at h
  cases hf : m.find? (fun r => r.1 == q) with
  | none => rw [hf] at h; simp at h
  | some r =>
    rw [hf] at h
    simp at h
    have hr1 : (r.1 == q) = true := by
      have hp := List.find?_some (p := fun x : String × α => x.1 == q) hf
      simpa using hp
    have hmem : r ∈ m := List.mem_of_find?_eq_some hf
    simp only [beq_iff_eq] at hr1
    have : r = (q, w) := by
      cases r with
      | mk r1 r2 =>
        simp only at hr1 h
        rw [hr1, h]
    rwa [this] at hmem

/-- Every pair produced by the inner BrickLink-id fold is the constant value
for one of the ids, or was already in the accumulator. -/
theorem mem_inner_fold {α : Type} (bls : List String) (v : α) :
    ∀ (m0 : List (String × α)) (x : String × α),
      x ∈ bls.foldl (fun m bl => assocSet m bl v) m0 →
      x ∈ m0 ∨ ∃ bl ∈ bls, x = (bl, v) := by
  induction bls with
  | nil => intro m0 x hx; exact Or.inl hx
  | cons bl rest ih =>
    intro m0 x hx
    simp only [List.foldl_cons] at hx
    rcases ih (assocSet m0 bl v) x hx with hm | ⟨bl2, hbl2, hxeq⟩
    · rcases mem_assocSet m0 bl v x hm with hkv | hm0
      · exact Or.inr ⟨bl, List.mem_cons_self bl rest, hkv⟩
      · exact Or.inl hm0
    · exact Or.inr ⟨bl2, List.mem_cons_of_mem bl hbl2, hxeq⟩

/-- Every pair of the mapping built by bulk_parts_by_bricklink comes from
one returned part record and one of its BrickLink ids. -/
theorem mem_buildMapping (results : List PartRec) :
    ∀ (m0 : List (String × String × String)) (x : String × String × String),
      x ∈ results.foldl
        (fun m p => p.bricklink_ids.foldl (fun m bl => assocSet m bl (p.part_num, p.name)) m) m0 →
      x ∈ m0 ∨ ∃ p ∈ results, x.2 = (p.part_num, p.name) ∧ x.1 ∈ p.bricklink_ids := by
  induction results with
  | nil => intro m0 x hx; exact Or.inl hx
  | cons p rest ih =>
    intro m0 x hx
    simp only [List.foldl_cons] at hx
    rcases ih _ x hx with hm | ⟨q, hq, hxq⟩
    · rcases mem_inner_fold p.bricklink_ids (p.part_num, p.name) m0 x hm with hm0 | ⟨bl, hbl, hxeq⟩
      · exact Or.inl hm0
      · refine Or.inr ⟨p, List.mem_cons_self p rest, ?_, ?_⟩
        · rw [hxeq]
        · rw [hxeq]; exact hbl
    · exact Or.inr ⟨q, List.mem_cons_of_mem p hq, hxq⟩

/-- Claim C7: calling the Batch Resolver with more than 50 identifiers
raises the assertion (issuing no request at all, hence neither truncating
nor splitting); with at most 50 it issues exactly one bulk request carrying
every id comma-joined and returns the alias mapping, in which every
resolved alias maps to the part_num and name of a returned part that lists
that alias among its BrickLink ids. -/
theorem c7_batch_size_contract (api : ApiRequest → List PartRec) (ids : List String) :
    (50 < ids.length →
      bulk_parts_by_bricklink api ids =
        (Except.error "Pass at most 50 ids per call to avoid 429s", [])) ∧
    (ids.length ≤ 50 →
      bulk_parts_by_bricklink api ids =
        (Except.ok (buildMapping (api (partsRequest ids))), [partsRequest ids]) ∧
      ∀ a d n,
        lookupAssoc (buildMapping (api (partsRequest ids))) a = some (d, n) →
        ∃ p ∈ api (partsRequest ids),
          d = p.part_num ∧ n = p.name ∧ a ∈ p.bricklink_ids) := by
  constructor
  · intro h
    unfold bulk_parts_by_bricklink
    rw [if_neg (by omega)]
  · intro h
    constructor
    · unfold bulk_parts_by_bricklink
      rw [if_pos h]
      rfl
    · intro a d n hlk
      have hmem := lookupAssoc_mem _ a (d, n) hlk
      have := mem_buildMapping _ [] (a, d, n) hmem
      rcases this with hnil | ⟨p, hp, hval, hbl⟩
      · exact absurd hnil (List.not_mem_nil _)
      · refine ⟨p, hp, ?_, ?_, hbl⟩
        · exact congrArg Prod.fst hval
        · exact congrArg Prod.snd hval

/-- Witness for C7 at a concrete oracle on the 51-id error branch, and on a
concrete 2-id list showing the single request and the mapping soundness. -/
theorem c7_batch_size_contract_witness :
    bulk_parts_by_bricklink apiC7 idsC7 =
      (Except.error "Pass at most 50 ids per call to avoid 429s", []) ∧
    bulk_parts_by_bricklink apiC7 ["975", "3794"] =
      (Except.ok (buildMapping (apiC7 (partsRequest ["975", "3794"]))),
       [partsRequest ["975", "3794"]]) :=
  And.intro
    ((c7_batch_size_contract apiC7 idsC7).1 (by decide))
    ((c7_batch_size_contract apiC7 ["975", "3794"]).2 (by decide)).1

/-- Claim C8: a 404 on the direct single-item lookup is a clean miss. The
Phase 3 loop is a total function (no error propagates out of it), and when
the lookup for the first alias answers 404 the store is left untouched by
that alias and the loop continues with exactly the remaining aliases. -/
theorem c8_not_found_clean_miss (single : String → SingleResp) (db : DB)
    (a : String) (rest : List String)
    (h : single a = SingleResp.httpError 404) :
    phase3_go single (a :: rest) db = phase3_go single rest db := by
  simp only [phase3_go, List.foldl_cons]
  have hstep : directLookupStep single db a = db := by
    unfold directLookupStep
    rw [h]
  rw [hstep]

/-- Witness for C8 at a concrete oracle and store. -/
theorem c8_not_found_clean_miss_witness :
    phase3_go singleC5 ("999999" :: ["3068bpb1291"]) dbC5 =
      phase3_go singleC5 ["3068bpb1291"] dbC5 :=
  c8_not_found_clean_miss singleC5 dbC5 "999999" ["3068bpb1291"] (by decide)

/-- The pagination loop with the next pointer exhausted yields nothing and
issues no request. -/
theorem paginate_go_none (fetch : String → Option Params → Page) (fuel : Nat) (p : Option Params) :
    paginate_go fetch fuel none p = ([], []) := by
  cases fuel <;> rfl

/-- Characterization of the pagination loop: the first request goes to the
given URL with the given params, every later request goes to the previous
response's next URL with params cleared, the yielded items are the in-order
concatenation of the fetched pages' results arrays, and if the loop stopped
before running out of fuel the last fetched page has no next URL. -/
theorem paginate_go_spec (fetch : String → Option Params → Page) :
    ∀ (fuel : Nat) (u : String) (p : Option Params),
      (1 ≤ fuel → (paginate_go fetch fuel (some u) p).2.head? = some (u, p)) ∧
      List.Chain' (fun x y => (fetch x.1 x.2).next = some y.1 ∧ y.2 = none)
        (paginate_go fetch fuel (some u) p).2 ∧
      (paginate_go fetch fuel (some u) p).1 =
        ((paginate_go fetch fuel (some u) p).2.map (fun r => (fetch r.1 r.2).results)).flatten ∧
      ((paginate_go fetch fuel (some u) p).2.length < fuel →
        ∀ r, (paginate_go fetch fuel (some u) p).2.getLast? = some r →
          (fetch r.1 r.2).next = none) := by
  intro fuel
  induction fuel with
  | zero =>
    intro u p
    refine ⟨fun hf => absurd hf (by omega), ?_, ?_, ?_⟩
    · simp [paginate_go, List.Chain']
    · simp [paginate_go]
    · intro hlen
      simp [paginate_go] at hlen
  | succ f ih =>
    intro u p
    cases hn : (fetch u p).next with
    | none =>
      have hrest : paginate_go fetch f (fetch u p).next none = ([], []) := by
        rw [hn]
        exact paginate_go_none fetch f none
      refine ⟨?_, ?_, ?_, ?_⟩
      · intro _
        simp [paginate_go, hrest]
      · simp [paginate_go, hrest]
      · simp [paginate_go, hrest]
      · intro _ r hr
        simp [paginate_go, hrest] at hr
        subst hr
        exact hn
    | some u2 =>
      have hih := ih u2 none
      refine ⟨?_, ?_, ?_, ?_⟩
      · intro _
        simp [paginate_go]
      · show List.Chain' _ ((u, p) :: (paginate_go fetch f (fetch u p).next none).2)
        rw [hn]
        rcases Nat.eq_zero_or_pos f with hf0 | hfpos
        · subst hf0
          simp [paginate_go, List.Chain']
        · refine List.chain'_cons'.mpr ⟨?_, hih.2.1⟩
          intro y hy
          rw [hih.1 hfpos] at hy
          simp at hy
          rw [← hy]
          exact ⟨hn, rfl⟩
      · have hcons : (paginate_go fetch (f+1) (some u) p).2 =
            (u, p) :: (paginate_go fetch f (some u2) none).2 := by
          simp [paginate_go, hn]
        have hfst : (paginate_go fetch (f+1) (some u) p).1 =
            (fetch u p).results ++ (paginate_go fetch f (some u2) none).1 := by
          simp [paginate_go, hn]
        rw [hfst, hcons, List.map_cons, List.flatten_cons, hih.2.2.1]
      · intro hlen r hr
        have hcons : (paginate_go fetch (f+1) (some u) p).2 =
            (u, p) :: (paginate_go fetch f (some u2) none).2 := by
          simp [paginate_go, hn]
        have hlen2 : (paginate_go fetch f (some u2) none).2.length < f := by
          rw [hcons] at hlen
          simp only [List.length_cons] at hlen
          omega
        have hfpos : 1 ≤ f := by omega
        have hheads := hih.1 hfpos
        rw [hcons] at hr
        cases hrest2 : (paginate_go fetch f (some u2) none).2 with
        | nil =>
          rw [hrest2] at hheads
          simp at hheads
        | cons y ys =>
          rw [hrest2] at hr
          rw [List.getLast?_cons_cons] at hr
          exact hih.2.2.2 hlen2 r (by rw [hrest2]; exact hr)

/-- Claim C10: paginate yields exactly the in-order concatenation of the
results arrays of the fetched pages; the first request is sent to the
resolved endpoint with the caller's query parameters, every subsequent
request is sent to the previous response's next URL with no parameters
attached, and when iteration stops with fuel to spare it is because the
last fetched page has no next URL. -/
theorem c10_paginate_follows_next (fetch : String → Option Params → Page)
    (fuel : Nat) (endpoint : String) (p0 : Option Params) (hfuel : 1 ≤ fuel) :
    (paginate fetch fuel endpoint p0).2.head? = some (resolveUrl endpoint, p0) ∧
    List.Chain' (fun x y => (fetch x.1 x.2).next = some y.1 ∧ y.2 = none)
      (paginate fetch fuel endpoint p0).2 ∧
    (paginate fetch fuel endpoint p0).1 =
      ((paginate fetch fuel endpoint p0).2.map (fun r => (fetch r.1 r.2).results)).flatten ∧
    ((paginate fetch fuel endpoint p0).2.length < fuel →
      ∀ r, (paginate fetch fuel endpoint p0).2.getLast? = some r →
        (fetch r.1 r.2).next = none) :=
  have h := paginate_go_spec fetch fuel (resolveUrl endpoint) p0
  ⟨h.1 hfuel, h.2.1, h.2.2.1, h.2.2.2⟩

/-- Witness for C10 at a concrete two-page fetch oracle. -/
theorem c10_paginate_follows_next_witness :
    (paginate fetchC10 5 "/colors/" (some [("page_size", "1000")])).2.head? =
      some (resolveUrl "/colors/", some [("page_size", "1000")]) ∧
    List.Chain' (fun x y => (fetchC10 x.1 x.2).next = some y.1 ∧ y.2 = none)
      (paginate fetchC10 5 "/colors/" (some [("page_size", "1000")])).2 ∧
    (paginate fetchC10 5 "/colors/" (some [("page_size", "1000")])).1 =
      ((paginate fetchC10 5 "/colors/" (some [("page_size", "1000")])).2.map
        (fun r => (fetchC10 r.1 r.2).results)).flatten ∧
    ((paginate fetchC10 5 "/colors/" (some [("page_size", "1000")])).2.length < 5 →
      ∀ r, (paginate fetchC10 5 "/colors/" (some [("page_size", "1000")])).2.getLast? = some r →
        (fetchC10 r.1 r.2).next = none) :=
  c10_paginate_follows_next fetchC10 5 "/colors/" (some [("page_size", "1000")]) (by decide)
